import Mathlib

/-!
Verification development for the dt-synthmetric-exporter metrics pipeline.

The Python sources (src/config.py, src/dynatrace_client.py,
src/export_synthetic_metrics.py, src/helpers.py) are embedded shallowly:

* Python floats are modelled as rationals; the single square root taken by
  numpy.std is irrational in general, so it is abstracted as an explicit
  function parameter `sqrtFn : Q -> Q`.  Every theorem below is either
  insensitive to the stdev field or quantifies over `sqrtFn`, so no property
  depends on the abstraction.
* Python dictionaries loaded from the YAML configuration are modelled as a
  `Config` structure whose fields mirror the configuration keys the embedded
  code reads; dict lookups become `List.lookup` on association lists.
* Python string operations are re-implemented over `List Char` so that the
  embedding is executable by the kernel.
* `round(x, n)` is modelled as ideal decimal rounding half to even (the
  documented behaviour of the Python builtin on exact values).
-/

namespace DtSynth

/-- Lowercase a character list, modelling Python str.lower for ASCII keys. -/
def lowerL (l : List Char) : List Char := l.map Char.toLower

/-- Containment of `p` as a contiguous sublist of the second argument,
modelling the Python `in` operator on strings. -/
def infixOfL (p : List Char) : List Char → Bool
  | [] => p.isEmpty
  | c :: t => p.isPrefixOf (c :: t) || infixOfL p t

/-- Python `needle in hay` on strings (case sensitive). -/
def substrOf (needle hay : String) : Bool := infixOfL needle.data hay.data

/-- Python `needle.lower() in hay.lower()`. -/
def substrCI (needle hay : String) : Bool :=
  infixOfL (lowerL needle.data) (lowerL hay.data)

/-- Python `s.split(sep)[0]` for a one character separator: the prefix of the
string before the first occurrence of the separator. -/
def beforeChar (sep : Char) (s : String) : String :=
  ⟨s.data.takeWhile (· ≠ sep)⟩

/-- Fuel driven, left to right, non overlapping replacement of the pattern
`pat` by `rep` in a character list, modelling Python str.replace for the
non-empty literal patterns used by the source. -/
def replaceFuel (pat rep : List Char) : ℕ → List Char → List Char
  | 0, l => l
  | _ + 1, [] => []
  | f + 1, c :: t =>
      if pat.isPrefixOf (c :: t) && !pat.isEmpty then
        rep ++ replaceFuel pat rep f (t.drop (pat.length - 1))
      else
        c :: replaceFuel pat rep f t

/-- Python `s.replace(pat, rep)` for non-empty `pat`. -/
def replaceStr (s pat rep : String) : String :=
  ⟨replaceFuel pat.data rep.data s.data.length s.data⟩

/-- Rounding half to even of a rational to an integer, the behaviour of the
Python builtin round on exact values. -/
def rhe (q : ℚ) : ℤ :=
  if q - ⌊q⌋ < 1 / 2 then ⌊q⌋
  else if 1 / 2 < q - ⌊q⌋ then ⌊q⌋ + 1
  else if Even ⌊q⌋ then ⌊q⌋ else ⌊q⌋ + 1

/-- Python `round(q, n)`: round half to even at `n` decimal places. -/
def roundTo (n : ℕ) (q : ℚ) : ℚ := (rhe (q * 10 ^ n) : ℚ) / 10 ^ n

/-- One entry of the `metrics` list of the configuration file.  Optional
fields model keys that may be absent from the YAML mapping. -/
structure MetricDef where
  key : String
  name : Option String := none
  description : Option String := none
  category : Option String := none
  aggregation : Option String := none
deriving DecidableEq

/-- One entry of the `action_duration_dual_criteria` configuration list. -/
structure DualCriterion where
  threshold_key : Option String := none
  display_suffix : String := ""
  description : String := ""
deriving DecidableEq

/-- One entry of the `excel_metric_order` configuration list. -/
structure ExcelOrderDef where
  metric_pattern : String := ""
  order : Option ℤ := none
deriving DecidableEq

/-- The slice of the parsed YAML configuration that the embedded code reads.
`time_metrics_keywords` is the TOP LEVEL configuration key of that name (the
one `Config.get_time_metrics_keywords` reads), while
`output_format_time_keywords` mirrors `output_format.time_metrics.keywords`,
which the spec refers to but the classifier never reads. -/
structure Config where
  metrics : List MetricDef := []
  time_metrics_keywords : List String := []
  output_format_time_keywords : List String := []
  fallback_stats_default : ℚ := 0
  evaluation_value : Option String := none
  time_thresholds : List (String × ℚ) := []
  ratio_thresholds : List (String × ℚ) := []
  action_duration_dual_criteria : List DualCriterion := []
  category_order : List String := []
  metric_order : List (String × List String) := []
  excel_metric_column_mapping : List (String × String) := []
  excel_metric_order : List ExcelOrderDef := []

/-- config.py Config.get_metric_definition: first metric whose key matches. -/
def Config.get_metric_definition (c : Config) (metric_key : String) : Option MetricDef :=
  c.metrics.find? (fun m => m.key == metric_key)

/-- config.py Config.is_counter_metric: the first metric definition with a
matching key decides; its aggregation must equal the string counter. -/
def Config.is_counter_metric (c : Config) (metric_key : String) : Bool :=
  match c.metrics.find? (fun m => m.key == metric_key) with
  | some m => m.aggregation == some "counter"
  | none => false

/-- config.py Config.get_time_metrics_keywords: reads the TOP LEVEL key
time_metrics_keywords of the configuration mapping (not
output_format.time_metrics.keywords), defaulting to the empty list. -/
def Config.get_time_metrics_keywords (c : Config) : List String :=
  c.time_metrics_keywords

/-- config.py Config.get_metric_category. -/
def Config.get_metric_category (c : Config) (metric_key : String) : String :=
  match c.metrics.find? (fun m => m.key == metric_key) with
  | some m => m.category.getD "Other"
  | none => "Other"

/-- config.py Config.get_evaluation_value_type. -/
def Config.get_evaluation_value_type (c : Config) : String :=
  c.evaluation_value.getD "avg"

/-- Unit adjustment applied to a time threshold: seconds denominated
thresholds are multiplied by 1000 when the requested unit is ms. -/
def timeAdj (unit : String) : Option ℚ → Option ℚ
  | some v => if unit = "ms" then some (v * 1000) else some v
  | none => none

/-- config.py Config.get_metric_threshold.  The duplicate-metric branch is
dead code (`_get_threshold_key_for_duplicate` always returns None) and is
therefore omitted.  The chain of substring tests and the ms conversion for
the five time patterns mirror the source exactly. -/
def Config.get_metric_threshold (c : Config) (metric_key : String) (unit : String) : Option ℚ :=
  if substrOf "actionDuration" metric_key then
    timeAdj unit (List.lookup "actionDuration" c.time_thresholds)
  else if substrOf "visuallyComplete" metric_key then
    timeAdj unit (List.lookup "visuallyComplete" c.time_thresholds)
  else if substrOf "largestContentfulPaint" metric_key then
    timeAdj unit (List.lookup "largestContentfulPaint" c.time_thresholds)
  else if substrOf "firstByte" metric_key then
    timeAdj unit (List.lookup "firstByte" c.time_thresholds)
  else if substrOf "speedIndex" metric_key then
    timeAdj unit (List.lookup "speedIndex" c.time_thresholds)
  else if substrOf "availability" metric_key then
    List.lookup "availability" c.ratio_thresholds
  else if substrOf "cumulativeLayoutShift" metric_key then
    List.lookup "cumulativeLayoutShift" c.ratio_thresholds
  else
    none

/-- config.py Config.evaluate_metric: 1 pass, 0 fail, -1 undefined. -/
def Config.evaluate_metric (c : Config) (metric_key : String) (value : ℚ)
    (time_unit : String) : Int :=
  match c.get_metric_threshold metric_key time_unit with
  | none => -1
  | some threshold =>
      if substrOf "availability" metric_key then
        if value ≥ threshold then 1 else 0
      else
        if value ≤ threshold then 1 else 0

/-- config.py Config.get_metric_full_name: "name:description" where a None
description falls back to the metric definition and the display name falls
back to the key. -/
def Config.get_metric_full_name (c : Config) (metric_key : String)
    (description : Option String) : String :=
  let d :=
    match description with
    | some d => d
    | none =>
        match c.get_metric_definition metric_key with
        | some m => m.description.getD ""
        | none => ""
  let n :=
    match c.get_metric_definition metric_key with
    | some m => m.name.getD metric_key
    | none => metric_key
  n ++ ":" ++ d

/-- Rank of a name in an enumerated list, as built by the Python dict
comprehension `{name: idx for idx, name in enumerate(names)}`: on duplicate
names the LAST index wins. -/
def dictRank (names : List String) (k : String) : Option ℕ :=
  ((names.enum.map (fun p => (p.2, p.1))).reverse).lookup k

/-- dynatrace_client.py DynatraceClient._is_time_metric: keyword containment
only, case insensitive, with the empty key short circuited to False; no
exclusion list is applied. -/
def is_time_metric (c : Config) (metric_key : String) : Bool :=
  if metric_key = "" then false
  else c.get_time_metrics_keywords.any (fun kw => substrCI kw metric_key)

/-- The statistics summary record produced by calculate_statistics. -/
structure Stats where
  min : ℚ
  max : ℚ
  avg : ℚ
  median : ℚ
  stdev : ℚ
deriving DecidableEq

/-- Insertion of an element into a list that is sorted ascending. -/
def insertLE (a : ℚ) : List ℚ → List ℚ
  | [] => [a]
  | b :: t => if a ≤ b then a :: b :: t else b :: insertLE a t

/-- Ascending sort of a rational list.  numpy sorts with quicksort, but the
sorted value sequence of a rational multiset is unique, so any correct sort
is extensionally the same function. -/
def sortLE : List ℚ → List ℚ
  | [] => []
  | a :: t => insertLE a (sortLE t)

/-- numpy min over a non-empty array (0 on the empty list, never used there). -/
def npMin : List ℚ → ℚ
  | [] => 0
  | x :: xs => xs.foldl min x

/-- numpy max over a non-empty array (0 on the empty list, never used there). -/
def npMax : List ℚ → ℚ
  | [] => 0
  | x :: xs => xs.foldl max x

/-- numpy arithmetic mean. -/
def npMean (l : List ℚ) : ℚ := l.sum / l.length

/-- numpy median: middle element of the sorted values for odd length, the
average of the two middle elements for even length. -/
def npMedian (l : List ℚ) : ℚ :=
  let s := sortLE l
  let n := l.length
  if n % 2 = 1 then s.getD (n / 2) 0
  else (s.getD (n / 2 - 1) 0 + s.getD (n / 2) 0) / 2

/-- numpy population variance: mean of the squared deviations. -/
def npVar (l : List ℚ) : ℚ :=
  ((l.map (fun x => (x - npMean l) ^ 2)).sum) / l.length

/-- The unrounded summary computed by the general branch of
calculate_statistics; numpy.std is sqrtFn applied to the population
variance. -/
def rawStats (sqrtFn : ℚ → ℚ) (l : List ℚ) : Stats :=
  { min := npMin l, max := npMax l, avg := npMean l, median := npMedian l,
    stdev := sqrtFn (npVar l) }

/-- Application of Python round(_, n) to every summary field. -/
def roundStats (n : ℕ) (s : Stats) : Stats :=
  { min := roundTo n s.min, max := roundTo n s.max, avg := roundTo n s.avg,
    median := roundTo n s.median, stdev := roundTo n s.stdev }

/-- The four metric keys hard coded by calculate_statistics for the
sum-instead-of-statistics path. -/
def counterKeys : List String :=
  ["builtin:synthetic.browser.success", "builtin:synthetic.browser.success.geo",
   "builtin:synthetic.browser.failure", "builtin:synthetic.browser.failure.geo"]

/-- dynatrace_client.py DynatraceClient.calculate_statistics.  An empty value
list yields the configured fallback summary; the four hard coded success and
failure keys yield the sum of the samples in every field with stdev 0; every
other key gets min, max, mean, median and population stdev, with samples
divided by 1000 first when the key is time classified and the unit is s, in
which case all fields are rounded to 2 decimals, else with 3 decimal rounding
for cumulativeLayoutShift keys.  The try/except fallback of the source
cannot fire in this typed embedding (every input is a rational list), so the
embedded function is the body of the try block. -/
def calculate_statistics (sqrtFn : ℚ → ℚ) (c : Config) (values : List ℚ)
    (metric_key : String) (time_unit : String) : Stats :=
  let d := c.fallback_stats_default
  if values = [] then
    { min := d, max := d, avg := d, median := d, stdev := d }
  else if metric_key ∈ counterKeys then
    let total := values.sum
    { min := total, max := total, avg := total, median := total, stdev := 0 }
  else
    let itm := is_time_metric c metric_key
    let vals := if itm && (time_unit == "s") then values.map (fun v => v / 1000) else values
    let base := rawStats sqrtFn vals
    if itm && (time_unit == "s") then roundStats 2 base
    else if substrOf "cumulativeLayoutShift" metric_key then roundStats 3 base
    else base

/-- dynatrace_client.py list of aggregation qualifiers stripped by
get_metric_description (each pattern preceded by a colon). -/
def aggPats : List String :=
  [":sum", ":avg", ":max", ":min", ":median", ":count", ":splitBy"]

/-- Prefix of a character list before the first occurrence of any aggregation
qualifier, modelling re.split at the first alternation match. -/
def stripAggAux : List Char → List Char
  | [] => []
  | ch :: rest =>
      if aggPats.any (fun p => p.data.isPrefixOf (ch :: rest)) then []
      else ch :: stripAggAux rest

/-- dynatrace_client.py: the cleaned metric key used by
get_metric_description. -/
def stripAgg (s : String) : String := ⟨stripAggAux s.data⟩

/-- dynatrace_client.py DynatraceClient.get_metric_description: description of
the first metric definition matching the cleaned key, defaulting to the
cleaned key on a match without description and to the ORIGINAL key when no
definition matches. -/
def get_metric_description (c : Config) (metric_key : String) : String :=
  let clean := stripAgg metric_key
  match c.metrics.find? (fun m => m.key == clean) with
  | some m => m.description.getD clean
  | none => metric_key

/-- The frequency cell of a raw row: a number, or any other value passed
through the pandas column untouched (modelled as a string). -/
inductive FreqVal where
  | num (v : ℚ)
  | str (s : String)
deriving DecidableEq

/-- The monitor context consumed by the row building loop of main.
get_device_type reads script.configuration.device.deviceName with default
Desktop; the embedding carries the resulting name directly. -/
structure Monitor where
  name : String := ""
  frequencyMin : ℚ := 15
  deviceName : String := "Desktop"
  tags : List (String × String) := []
deriving DecidableEq

/-- Separator used between tag pieces. -/
def sepCommaSpace : List Char := [',', ' ']

/-- The comma separated tag string built by main:
", ".join(f"{key}:{value}"). -/
def tagPieces : List (String × String) → List Char
  | [] => []
  | [t] => t.1.data ++ ':' :: t.2.data
  | t :: u :: rest => t.1.data ++ ':' :: t.2.data ++ sepCommaSpace ++ tagPieces (u :: rest)

/-- Tag string of a monitor as built by main. -/
def tagsString (tags : List (String × String)) : String := ⟨tagPieces tags⟩

/-- A raw mode report row, with the dict keys of main as fields. -/
structure RawRow where
  monitor_name : String := ""
  frequency : FreqVal := .num 15
  device : String := "Desktop"
  location : String := ""
  metric_name : String := ""
  metric_description : String := ""
  min : ℚ := 0
  max : ℚ := 0
  avg : ℚ := 0
  median : ℚ := 0
  stdev : ℚ := 0
  tags : String := ""
deriving DecidableEq

/-- An evaluation mode report row, with the dict keys of main as fields.
`excelScatter` models the single dynamically added excel column a row can
receive in format_for_evaluation_export_excel (target column key and the
scattered average); it is `none` for rows as built by main. -/
structure EvalRow where
  code : String := ""
  corporate : String := ""
  no : String := ""
  code_no : String := ""
  metric_full_name : String := ""
  evaluation : Int := -1
  avg : ℚ := 0
  url : String := ""
  index : ℕ := 0
  tags : String := ""
  excelScatter : Option (String × ℚ) := none
deriving DecidableEq

/-- A report row of either output mode. -/
inductive ReportRow where
  | raw (r : RawRow)
  | eval (e : EvalRow)
deriving DecidableEq

/-- Selection of the representative statistic:
stats.get(t, stats.get("avg", 0)) on the five keyed summary dict. -/
def statGet (s : Stats) (t : String) : ℚ :=
  if t = "min" then s.min
  else if t = "max" then s.max
  else if t = "avg" then s.avg
  else if t = "median" then s.median
  else if t = "stdev" then s.stdev
  else s.avg

/-- export_synthetic_metrics.py main, dual criteria evaluation (lines
146-156): the threshold of the criterion is looked up in time_thresholds by
threshold_key; no threshold gives -1; under unit s the value is compared to
the threshold directly, under any other unit to threshold * 1000; pass is
value below or equal. -/
def dualEvaluate (c : Config) (crit : DualCriterion) (eval_value : ℚ)
    (time_unit : String) : Int :=
  match crit.threshold_key.bind (fun k => List.lookup k c.time_thresholds) with
  | none => -1
  | some threshold =>
      if time_unit = "s" then
        if eval_value ≤ threshold then 1 else 0
      else
        if eval_value ≤ threshold * 1000 then 1 else 0

/-- export_synthetic_metrics.py main, per metric row building (lines
122-224): empty data points are skipped; actionDuration keys produce one row
per configured dual criterion (in BOTH output modes); every other key
produces a single row shaped by the output mode.
is_evaluation_mode(mode) is mode == "evaluation". -/
def process_metric (sqrtFn : ℚ → ℚ) (c : Config) (output_mode : String)
    (monitor : Monitor) (location_name : String) (metric_key : String)
    (data_points : List ℚ) (time_unit : String) : List ReportRow :=
  if data_points = [] then []
  else
    let stats := calculate_statistics sqrtFn c data_points metric_key time_unit
    let eval_value := statGet stats c.get_evaluation_value_type
    let evaluation := c.evaluate_metric metric_key eval_value time_unit
    let tags := tagsString monitor.tags
    if substrOf "actionDuration" metric_key then
      c.action_duration_dual_criteria.map (fun crit =>
        let criteria_evaluation := dualEvaluate c crit eval_value time_unit
        if output_mode = "evaluation" then
          .eval { metric_full_name :=
                    c.get_metric_full_name (metric_key ++ crit.display_suffix)
                      (some crit.description),
                  evaluation := criteria_evaluation,
                  avg := stats.avg, index := 0, tags := tags }
        else
          .raw { monitor_name := monitor.name,
                 frequency := .num monitor.frequencyMin,
                 device := monitor.deviceName, location := location_name,
                 metric_name := metric_key ++ crit.display_suffix,
                 metric_description := crit.description,
                 min := stats.min, max := stats.max, avg := stats.avg,
                 median := stats.median, stdev := stats.stdev, tags := tags })
    else if output_mode = "evaluation" then
      [.eval { metric_full_name :=
                 c.get_metric_full_name metric_key
                   (some (get_metric_description c metric_key)),
               evaluation := evaluation,
               avg := stats.avg, index := 0, tags := tags }]
    else
      [.raw { monitor_name := monitor.name,
              frequency := .num monitor.frequencyMin,
              device := monitor.deviceName, location := location_name,
              metric_name := metric_key,
              metric_description := get_metric_description c metric_key,
              min := stats.min, max := stats.max, avg := stats.avg,
              median := stats.median, stdev := stats.stdev, tags := tags }]

/-- helpers.py MetricsDataFrame._adjust_metric_description: the ms unit label
becomes an s label when the output unit is s. -/
def adjust_metric_description (description : String) (time_unit : String) : String :=
  if time_unit = "s" then
    replaceStr (replaceStr description "（ms）" "（s）") "(ms)" "(s)"
  else description

/-- helpers.py MetricsDataFrame.convert_units, frequency cell rewrite:
round(float(x) / 60, 2) for numeric cells, identity otherwise. -/
def freqConvert : FreqVal → FreqVal
  | .num v => .num (roundTo 2 (v / 60))
  | .str s => .str s

/-- helpers.py MetricsDataFrame.convert_units on one row.  Raw mode frames
carry frequency and metric_description columns, so both rewrites apply;
evaluation mode frames carry neither column, so the row passes through
unchanged. -/
def convert_units (time_unit : String) : ReportRow → ReportRow
  | .raw r =>
      .raw { r with frequency := freqConvert r.frequency,
                    metric_description :=
                      adjust_metric_description r.metric_description time_unit }
  | .eval e => .eval e

/-- Stable insertion of an element into a list sorted by `le`. -/
def insertBy {α : Type} (le : α → α → Bool) (a : α) : List α → List α
  | [] => [a]
  | b :: t => if le a b then a :: b :: t else b :: insertBy le a t

/-- Stable ascending sort by `le` (a total preorder test).  pandas
sort_values uses quicksort whose tie order is unspecified; the properties
proved below do not depend on the order of tied rows. -/
def sortBy {α : Type} (le : α → α → Bool) : List α → List α
  | [] => []
  | a :: t => insertBy le a (sortBy le t)

/-- helpers.py sort_by_monitor, evaluation branch: metric name extracted from
the composite label before the first colon; category rank from
sort_settings.category_order, metric rank from sort_settings.metric_order,
absent ranks map to 999. -/
def evalSortKey (c : Config) (r : EvalRow) : ℕ × ℕ :=
  let name := beforeChar ':' r.metric_full_name
  let cat := c.get_metric_category name
  let catOrd := (dictRank c.category_order cat).getD 999
  let metOrd :=
    match List.lookup cat c.metric_order with
    | some l => (dictRank l name).getD 999
    | none => 999
  (catOrd, metOrd)

/-- Lexicographic order test on pairs of naturals. -/
def pairLE (a b : ℕ × ℕ) : Bool := a.1 < b.1 || (a.1 = b.1 && a.2 ≤ b.2)

/-- helpers.py MetricsDataFrame.sort_by_monitor on an evaluation mode frame:
sort by category rank then metric rank. -/
def sort_by_monitor (c : Config) (rows : List EvalRow) : List EvalRow :=
  sortBy (fun a b => pairLE (evalSortKey c a) (evalSortKey c b)) rows

/-- Positional assignment df[index] = range(start, start + len(df)). -/
def assignIndexFrom (i : ℕ) : List EvalRow → List EvalRow
  | [] => []
  | r :: rest => { r with index := i } :: assignIndexFrom (i + 1) rest

/-- df[index] = range(1, len(df) + 1). -/
def assignIndex (rows : List EvalRow) : List EvalRow := assignIndexFrom 1 rows

/-- helpers.py MetricsDataFrame.format_for_evaluation_export: assign the one
based index positionally, then rename and select the configured display
columns (a projection that changes no cell value and reorders no row). -/
def format_for_evaluation_export (rows : List EvalRow) : List EvalRow :=
  assignIndex rows

/-- helpers.py, metric name extraction of
format_for_evaluation_export_excel for labels starting with builtin: and
carrying no duplicate suffix: the regex
builtin:synthetic\.browser\.[^:]+ anchored at the start, with a fallback to
the prefix before the first colon. -/
def extractBuiltinName (full : String) : String :=
  let pre := "builtin:synthetic.browser."
  if pre.data.isPrefixOf full.data then
    let rest := (full.data.drop pre.data.length).takeWhile (· ≠ ':')
    if rest.isEmpty then beforeChar ':' full else ⟨pre.data ++ rest⟩
  else beforeChar ':' full

/-- helpers.py, full metric name collapse of
format_for_evaluation_export_excel: labels carrying a dual criteria suffix
marker map onto the canonical actionDuration identity. -/
def excelMetricName (full : String) : String :=
  if "builtin:".data.isPrefixOf full.data then
    if substrOf "（1）" full || substrOf "（2）" full then
      "builtin:synthetic.browser.actionDuration.load"
    else extractBuiltinName full
  else beforeChar ':' full

/-- helpers.py, scatter step of format_for_evaluation_export_excel on one
row: the average value lands in the mapped excel column of that row; rows
without a mapping entry are left untouched (with a logged warning).  The
average of an evaluation row is always a number in this typed embedding, so
the emptiness test of the source is always false. -/
def setScatter (c : Config) (r : EvalRow) : EvalRow :=
  match List.lookup (excelMetricName r.metric_full_name) c.excel_metric_column_mapping with
  | some col => { r with excelScatter := some (col, r.avg) }
  | none => r

/-- helpers.py, excel specific rank of a composite label: first matching
pattern of excel_metric_order wins, 999 when none matches or the matching
entry has no order. -/
def get_excel_sort_order (c : Config) (full : String) : ℤ :=
  match c.excel_metric_order.find? (fun d => substrOf d.metric_pattern full) with
  | some d => d.order.getD 999
  | none => 999

/-- Cell of the dynamically added column named monitor_name in an evaluation
mode excel frame, for one row: the scattered average when this row
scattered into that column, else the empty string the column was initialised
with. -/
def monitorNameCell (r : EvalRow) : Option ℚ :=
  match r.excelScatter with
  | some (col, v) => if col = "monitor_name" then some v else none
  | none => none

/-- helpers.py MetricsDataFrame.format_for_evaluation_export_excel: the one
based index is assigned FIRST, then averages are scattered into the mapped
excel columns, and only then, when excel_metric_order is configured, the
frame is sorted by the columns monitor_name and excel_sort_order.  An
evaluation mode frame has a monitor_name column only when some excel scatter
column is literally named monitor_name; otherwise pandas raises KeyError.
When that column exists it holds the initialiser "" for unscattered rows and
a number for scattered ones; sorting a mix of strings and numbers raises
TypeError, sorting all strings ties every row on the first key, and sorting
all numbers orders by the scattered average first. -/
def format_for_evaluation_export_excel (c : Config) (rows : List EvalRow) :
    Except String (List EvalRow) :=
  let rows1 := (assignIndex rows).map (setScatter c)
  if c.excel_metric_order.isEmpty then .ok rows1
  else if "monitor_name" ∈ c.excel_metric_column_mapping.map Prod.snd then
    if rows1.all (fun r => (monitorNameCell r).isNone) then
      .ok (sortBy (fun a b =>
            decide (get_excel_sort_order c a.metric_full_name ≤
                    get_excel_sort_order c b.metric_full_name)) rows1)
    else if rows1.all (fun r => (monitorNameCell r).isSome) then
      .ok (sortBy (fun a b =>
            let va := ((monitorNameCell a).getD 0, get_excel_sort_order c a.metric_full_name)
            let vb := ((monitorNameCell b).getD 0, get_excel_sort_order c b.metric_full_name)
            decide (va.1 < vb.1 ∨ (va.1 = vb.1 ∧ va.2 ≤ vb.2))) rows1)
    else .error "TypeError: string and number cells are not comparable"
  else .error "KeyError: monitor_name"

/-- helpers.py export_to_csv, evaluation mode, standard variant:
convert_units (identity on evaluation rows), sort_by_monitor, then
format_for_evaluation_export. -/
def evaluation_pipeline (c : Config) (rows : List EvalRow) : List EvalRow :=
  format_for_evaluation_export (sort_by_monitor c rows)

/-! ## Fixtures used by counterexamples and witnesses -/

/-- A configuration whose catalog declares the metric foo as a counter. -/
def cfgCounterFoo : Config :=
  { metrics := [{ key := "foo", aggregation := some "counter" }] }

/-- A configuration classifying keys containing success as time metrics. -/
def cfgKwSuccess : Config := { time_metrics_keywords := ["success"] }

/-- A configuration classifying keys containing duration as time metrics. -/
def cfgKwDuration : Config := { time_metrics_keywords := ["duration"] }

/-- A constant stand in for the abstracted square root. -/
def sqZero : ℚ → ℚ := fun _ => 0

/-! ## C1 -/

/-- Shared reduction of the hard coded sum path of calculate_statistics. -/
theorem calc_stats_counter_keys (sqrtFn : ℚ → ℚ) (c : Config) (values : List ℚ)
    (metric_key : String) (time_unit : String)
    (hk : metric_key ∈ counterKeys) (hv : values ≠ []) :
    calculate_statistics sqrtFn c values metric_key time_unit =
      { min := values.sum, max := values.sum, avg := values.sum,
        median := values.sum, stdev := 0 } := by
  simp only [calculate_statistics]
  rw [if_neg hv, if_pos hk]

/-- C1 (amended): for every metric key in the hard coded success and failure
list and every non-empty sample list, calculate_statistics returns the sum of
the samples in min, max, avg and median, and 0 in stdev, for any
configuration, square root and time unit. -/
theorem counter_keys_sum_stats (sqrtFn : ℚ → ℚ) (c : Config) (values : List ℚ)
    (metric_key : String) (time_unit : String)
    (hk : metric_key ∈ counterKeys) (hv : values ≠ []) :
    calculate_statistics sqrtFn c values metric_key time_unit =
      { min := values.sum, max := values.sum, avg := values.sum,
        median := values.sum, stdev := 0 } :=
  calc_stats_counter_keys sqrtFn c values metric_key time_unit hk hv

/-- C1 witness: the theorem applied to the success key and samples [1, 2]. -/
theorem counter_keys_sum_stats_witness :
    calculate_statistics sqZero cfgCounterFoo [1, 2]
        "builtin:synthetic.browser.success" "ms" =
      { min := 3, max := 3, avg := 3, median := 3, stdev := 0 } := by
  rw [counter_keys_sum_stats sqZero cfgCounterFoo [1, 2]
        "builtin:synthetic.browser.success" "ms" (by decide) (by decide)]
  norm_num

/-- C1 counterexample: the metric foo has aggregation counter in the catalog,
its sample list [1, 2] is non-empty, but calculate_statistics does not return
the sum 3 in the min field, because the sum path of the code tests the key
against a hard coded list instead of consulting the catalog. -/
theorem counter_claim_counterexample :
    Config.is_counter_metric cfgCounterFoo "foo" = true ∧
    (calculate_statistics sqZero cfgCounterFoo [1, 2] "foo" "ms").min ≠
      ([(1 : ℚ), 2].sum) := by
  constructor
  · decide
  · intro h
    rw [show ([(1 : ℚ), 2].sum) = 3 by norm_num] at h
    revert h
    decide

/-! ## C7 -/

/-- C7: calculate_statistics is a total function of its typed inputs (it
cannot raise), and an empty sample list yields the fallback summary whose
five fields all equal the configured default value, for every configuration,
metric key, square root and time unit.  The except branch of the source
(non-numeric input) has no inhabitant in the typed embedding; it returns the
same fallback summary after logging a warning. -/
theorem empty_values_fallback (sqrtFn : ℚ → ℚ) (c : Config)
    (metric_key : String) (time_unit : String) :
    calculate_statistics sqrtFn c [] metric_key time_unit =
      { min := c.fallback_stats_default, max := c.fallback_stats_default,
        avg := c.fallback_stats_default, median := c.fallback_stats_default,
        stdev := c.fallback_stats_default } := by
  simp [calculate_statistics]

/-! ## C2 -/

/-- Test whether a key hits one of the five time threshold branches of
get_metric_threshold. -/
def usesTimeThreshold (metric_key : String) : Bool :=
  substrOf "actionDuration" metric_key || substrOf "visuallyComplete" metric_key ||
  substrOf "largestContentfulPaint" metric_key || substrOf "firstByte" metric_key ||
  substrOf "speedIndex" metric_key

/-- The ms adjustment multiplies a present seconds threshold by 1000. -/
theorem timeAdj_ms (L : Option ℚ) :
    timeAdj "ms" L = (timeAdj "s" L).map (fun th => th * 1000) := by
  cases L <;> simp [timeAdj]

/-- C2: evaluate_metric returns -1 exactly when get_metric_threshold finds no
configured threshold; with a threshold t, keys containing availability pass
iff the value is at least t and every other key passes iff the value is at
most t; and for the keys hitting a time threshold branch the ms threshold is
the seconds threshold multiplied by 1000. -/
theorem evaluate_metric_spec (c : Config) (k : String) (v : ℚ) (tu : String) :
    (c.evaluate_metric k v tu = -1 ↔ c.get_metric_threshold k tu = none) ∧
    (∀ t, c.get_metric_threshold k tu = some t →
      (substrOf "availability" k = true →
        c.evaluate_metric k v tu = if v ≥ t then 1 else 0) ∧
      (substrOf "availability" k = false →
        c.evaluate_metric k v tu = if v ≤ t then 1 else 0)) ∧
    (usesTimeThreshold k = true →
      c.get_metric_threshold k "ms" =
        (c.get_metric_threshold k "s").map (fun th => th * 1000)) := by
  refine ⟨?_, ?_, ?_⟩
  · cases h : c.get_metric_threshold k tu with
    | none => simp [Config.evaluate_metric, h]
    | some t =>
        simp only [Config.evaluate_metric, h]
        split_ifs <;> simp
  · intro t ht
    constructor
    · intro ha
      simp [Config.evaluate_metric, ht, ha]
    · intro ha
      simp [Config.evaluate_metric, ht, ha]
  · intro hut
    simp only [Config.get_metric_threshold]
    split_ifs with h1 h2 h3 h4 h5 h6 h7
    · exact timeAdj_ms _
    · exact timeAdj_ms _
    · exact timeAdj_ms _
    · exact timeAdj_ms _
    · exact timeAdj_ms _
    · simp [usesTimeThreshold, h1, h2, h3, h4, h5] at hut
    · simp [usesTimeThreshold, h1, h2, h3, h4, h5] at hut
    · simp [usesTimeThreshold, h1, h2, h3, h4, h5] at hut

/-- A configuration with one ratio threshold and one time threshold. -/
def cfgThresholds : Config :=
  { ratio_thresholds := [("availability", 99)],
    time_thresholds := [("firstByte", 3)] }

/-- C2 witness: the theorem applied at a concrete configuration decides one
availability evaluation and exhibits the ms scaling of a time threshold. -/
theorem evaluate_metric_spec_witness :
    Config.evaluate_metric cfgThresholds "availability" 100 "ms" = 1 ∧
    Config.get_metric_threshold cfgThresholds "x.firstByte" "ms" = some 3000 := by
  constructor
  · have h := (evaluate_metric_spec cfgThresholds "availability" 100 "ms").2.1 99
      (by decide)
    rw [h.1 (by decide)]
    norm_num
  · have h := (evaluate_metric_spec cfgThresholds "x.firstByte" 0 "ms").2.2 (by decide)
    rw [h]
    have hs : Config.get_metric_threshold cfgThresholds "x.firstByte" "s" = some 3 := by
      decide
    rw [hs]
    norm_num

/-! ## C5 -/

/-- Definition following the words of claim C5, for comparison with the
classifier of the source: keyword containment (case insensitive) against
output_format.time_metrics.keywords, with the exclusion set (total,
availability, success, failure) taking precedence. -/
def is_time_metric_claim (c : Config) (metric_key : String) : Bool :=
  if ["total", "availability", "success", "failure"].any
      (fun p => substrCI p metric_key) then false
  else c.output_format_time_keywords.any (fun kw => substrCI kw metric_key)

/-- C5 counterexample: with the keyword duration configured in both keyword
lists, the key totalDuration is classified as a time metric by the code, but
the claim mandates the total exclusion to take precedence and classify it as
not time. -/
theorem time_classifier_counterexample :
    is_time_metric
        { time_metrics_keywords := ["duration"],
          output_format_time_keywords := ["duration"] } "totalDuration" = true ∧
    is_time_metric_claim
        { time_metrics_keywords := ["duration"],
          output_format_time_keywords := ["duration"] } "totalDuration" = false := by
  decide

/-- C5 (amended): the classifier used by the statistics stage returns true
exactly when the key is non-empty and contains, case insensitively, some
keyword of the TOP LEVEL time_metrics_keywords configuration list; no
exclusion set is applied and output_format.time_metrics.keywords is not
consulted. -/
theorem is_time_metric_characterisation (c : Config) (k : String) :
    is_time_metric c k = true ↔
      (k ≠ "" ∧ ∃ kw ∈ c.time_metrics_keywords, substrCI kw k = true) := by
  by_cases hk : k = ""
  · simp [is_time_metric, hk]
  · simp [is_time_metric, hk, Config.get_time_metrics_keywords, List.any_eq_true]

/-- C5 witness: the characterisation applied at a concrete configuration and
key. -/
theorem is_time_metric_characterisation_witness :
    is_time_metric cfgKwDuration "x.duration" = true :=
  (is_time_metric_characterisation cfgKwDuration "x.duration").mpr (by decide)

/-! ## C3 -/

/-- Shared reduction of the general statistics branch of
calculate_statistics. -/
theorem calc_stats_general (sqrtFn : ℚ → ℚ) (c : Config) (values : List ℚ)
    (metric_key : String) (time_unit : String)
    (hv : values ≠ []) (hk : metric_key ∉ counterKeys) :
    calculate_statistics sqrtFn c values metric_key time_unit =
      (if is_time_metric c metric_key && (time_unit == "s") then
        roundStats 2 (rawStats sqrtFn (values.map (fun v => v / 1000)))
      else if substrOf "cumulativeLayoutShift" metric_key then
        roundStats 3 (rawStats sqrtFn values)
      else rawStats sqrtFn values) := by
  simp only [calculate_statistics]
  rw [if_neg hv, if_neg hk]
  simp only [Bool.and_eq_true, beq_iff_eq]
  by_cases h : is_time_metric c metric_key = true ∧ time_unit = "s" <;> simp [h]

/-- C3 counterexample: with the keyword success configured, the hard coded
counter key builtin:synthetic.browser.success is time classified, yet under
unit s its sample 1000 is not divided by 1000 and rounded (which would give
min 1): the sum path takes precedence and min is 1000. -/
theorem time_seconds_counterexample :
    is_time_metric cfgKwSuccess "builtin:synthetic.browser.success" = true ∧
    (calculate_statistics sqZero cfgKwSuccess [1000]
        "builtin:synthetic.browser.success" "s").min = 1000 ∧
    roundTo 2 ((1000 : ℚ) / 1000) = 1 ∧ (1000 : ℚ) ≠ 1 := by
  refine ⟨by decide, ?_, ?_, by norm_num⟩
  · rw [calc_stats_counter_keys sqZero cfgKwSuccess [1000]
        "builtin:synthetic.browser.success" "s" (by decide) (by decide)]
    norm_num
  · have h1 : ((1000 : ℚ) / 1000) = 1 := by norm_num
    rw [h1]
    have h2 : ((1 : ℚ) * 10 ^ 2) = 100 := by norm_num
    simp only [roundTo, rhe, h2]
    norm_num

/-- C3 (amended): for every time classified metric key OUTSIDE the hard coded
success and failure list and every non-empty sample list, under unit s every
sample is divided by 1000 before aggregation and every summary field is
rounded to 2 decimals; under unit ms the aggregation uses the raw samples
with no 2 decimal rounding (keys containing cumulativeLayoutShift still get
the 3 decimal rounding, all other keys are returned unrounded). -/
theorem time_stats_scaling (sqrtFn : ℚ → ℚ) (c : Config) (values : List ℚ)
    (metric_key : String)
    (hv : values ≠ []) (hk : metric_key ∉ counterKeys)
    (ht : is_time_metric c metric_key = true) :
    calculate_statistics sqrtFn c values metric_key "s" =
      roundStats 2 (rawStats sqrtFn (values.map (fun v => v / 1000))) ∧
    (substrOf "cumulativeLayoutShift" metric_key = false →
      calculate_statistics sqrtFn c values metric_key "ms" =
        rawStats sqrtFn values) ∧
    (substrOf "cumulativeLayoutShift" metric_key = true →
      calculate_statistics sqrtFn c values metric_key "ms" =
        roundStats 3 (rawStats sqrtFn values)) := by
  refine ⟨?_, ?_, ?_⟩
  · rw [calc_stats_general sqrtFn c values metric_key "s" hv hk]
    simp [ht]
  · intro hcls
    rw [calc_stats_general sqrtFn c values metric_key "ms" hv hk]
    simp [ht, hcls]
  · intro hcls
    rw [calc_stats_general sqrtFn c values metric_key "ms" hv hk]
    simp [ht, hcls]

/-- C3 witness: the theorem applied to the key x.duration with samples
[1000, 3000] under unit s. -/
theorem time_stats_scaling_witness :
    calculate_statistics sqZero cfgKwDuration [1000, 3000] "x.duration" "s" =
      { min := 1, max := 3, avg := 2, median := 2, stdev := 0 } := by
  rw [(time_stats_scaling sqZero cfgKwDuration [1000, 3000] "x.duration"
        (by decide) (by decide) (by decide)).1]
  have hmap : ([(1000 : ℚ), 3000].map (fun v => v / 1000)) = [1, 3] := by
    norm_num
  rw [hmap]
  have hsort : sortLE [(1 : ℚ), 3] = [1, 3] := by
    norm_num [sortLE, insertLE]
  simp only [rawStats, roundStats, npMin, npMax, npMean, npMedian, npVar, hsort, sqZero]
  norm_num [roundTo, rhe]

/-! ## C4 -/

/-- C4: in evaluation mode, an actionDuration metric with exactly two
configured dual criteria produces exactly two rows from one measurement;
each row carries the full name built from its own criterion (suffix appended
to the key, its own description) and the outcome of its own threshold key,
while the shared fields (average, tags, and the constant empty columns) are
identical copies of the measurement context. -/
theorem dual_criteria_two_rows (sqrtFn : ℚ → ℚ) (c : Config) (monitor : Monitor)
    (loc : String) (metric_key : String) (values : List ℚ) (tu : String)
    (c1 c2 : DualCriterion)
    (hv : values ≠ []) (hd : substrOf "actionDuration" metric_key = true)
    (hcrit : c.action_duration_dual_criteria = [c1, c2]) :
    process_metric sqrtFn c "evaluation" monitor loc metric_key values tu =
      [ .eval { metric_full_name :=
                  c.get_metric_full_name (metric_key ++ c1.display_suffix)
                    (some c1.description),
                evaluation :=
                  dualEvaluate c c1
                    (statGet (calculate_statistics sqrtFn c values metric_key tu)
                      c.get_evaluation_value_type) tu,
                avg := (calculate_statistics sqrtFn c values metric_key tu).avg,
                index := 0, tags := tagsString monitor.tags },
        .eval { metric_full_name :=
                  c.get_metric_full_name (metric_key ++ c2.display_suffix)
                    (some c2.description),
                evaluation :=
                  dualEvaluate c c2
                    (statGet (calculate_statistics sqrtFn c values metric_key tu)
                      c.get_evaluation_value_type) tu,
                avg := (calculate_statistics sqrtFn c values metric_key tu).avg,
                index := 0, tags := tagsString monitor.tags } ] := by
  simp only [process_metric]
  rw [if_neg hv]
  simp [hd, hcrit]

/-- Dual criteria fixture: actionDuration scored against 3 seconds and 5
seconds. -/
def cfgDual : Config :=
  { time_thresholds := [("actionDuration", 3), ("actionDuration2", 5)],
    action_duration_dual_criteria :=
      [ { threshold_key := some "actionDuration", display_suffix := "（1）",
          description := "within 3s" },
        { threshold_key := some "actionDuration2", display_suffix := "（2）",
          description := "within 5s" } ] }

/-- C4 witness: the theorem applied to one measurement of 2000 ms produces
the two rows, passing both criteria. -/
theorem dual_criteria_two_rows_witness :
    process_metric sqZero cfgDual "evaluation" { name := "M" } "Loc"
        "builtin:synthetic.browser.actionDuration.load" [2000] "ms" =
      [ .eval { metric_full_name :=
                  "builtin:synthetic.browser.actionDuration.load（1）:within 3s",
                evaluation := 1, avg := 2000, index := 0, tags := "" },
        .eval { metric_full_name :=
                  "builtin:synthetic.browser.actionDuration.load（2）:within 5s",
                evaluation := 1, avg := 2000, index := 0, tags := "" } ] := by
  rw [dual_criteria_two_rows sqZero cfgDual { name := "M" } "Loc"
        "builtin:synthetic.browser.actionDuration.load" [2000] "ms" _ _
        (by decide) (by decide) rfl]
  rw [calc_stats_general sqZero cfgDual [2000]
        "builtin:synthetic.browser.actionDuration.load" "ms" (by decide) (by decide)]
  rw [if_neg (by decide), if_neg (by decide)]
  have havg : (rawStats sqZero [2000]).avg = 2000 := by
    simp [rawStats, npMean]
  have hval : statGet (rawStats sqZero [2000]) cfgDual.get_evaluation_value_type =
      2000 := by
    simp only [Config.get_evaluation_value_type, cfgDual]
    simp only [statGet]
    rw [if_neg (by decide), if_neg (by decide), if_pos (by decide)]
    exact havg
  rw [hval, havg]
  have hlk1 : (Option.some "actionDuration").bind
      (fun k => List.lookup k cfgDual.time_thresholds) = some 3 := by decide
  have hlk2 : (Option.some "actionDuration2").bind
      (fun k => List.lookup k cfgDual.time_thresholds) = some 5 := by decide
  have he1 : dualEvaluate cfgDual
      { threshold_key := some "actionDuration", display_suffix := "（1）",
        description := "within 3s" } 2000 "ms" = 1 := by
    simp only [dualEvaluate, hlk1]
    rw [if_neg (by decide)]
    norm_num
  have he2 : dualEvaluate cfgDual
      { threshold_key := some "actionDuration2", display_suffix := "（2）",
        description := "within 5s" } 2000 "ms" = 1 := by
    simp only [dualEvaluate, hlk2]
    rw [if_neg (by decide)]
    norm_num
  rw [he1, he2]
  decide

/-! ## C9 -/

/-- C9 counterexample: in raw output mode an actionDuration metric with two
configured dual criteria and data emits two rows for one (metric, location)
pair, not exactly one. -/
theorem raw_mode_row_count_counterexample :
    (process_metric sqZero cfgDual "raw" { name := "M" } "Loc"
        "builtin:synthetic.browser.actionDuration.load" [1] "ms").length = 2 ∧
    (2 : ℕ) ≠ 1 := by
  constructor
  · simp only [process_metric]
    rw [if_neg (by decide)]
    simp only [cfgDual]
    rw [if_pos (by decide)]
    simp
  · decide

/-- C9 (amended): in raw output mode, every metric whose key does not contain
actionDuration emits, per (metric, location) pair with data, exactly one raw
row carrying the full statistics summary and the descriptive text; the raw
row shape carries no evaluation outcome.  Keys containing actionDuration
instead emit one raw row per configured dual criterion. -/
theorem raw_mode_single_row (sqrtFn : ℚ → ℚ) (c : Config) (monitor : Monitor)
    (loc : String) (metric_key : String) (values : List ℚ) (tu : String)
    (hv : values ≠ []) (hd : substrOf "actionDuration" metric_key = false) :
    process_metric sqrtFn c "raw" monitor loc metric_key values tu =
      [.raw { monitor_name := monitor.name,
              frequency := .num monitor.frequencyMin,
              device := monitor.deviceName, location := loc,
              metric_name := metric_key,
              metric_description := get_metric_description c metric_key,
              min := (calculate_statistics sqrtFn c values metric_key tu).min,
              max := (calculate_statistics sqrtFn c values metric_key tu).max,
              avg := (calculate_statistics sqrtFn c values metric_key tu).avg,
              median := (calculate_statistics sqrtFn c values metric_key tu).median,
              stdev := (calculate_statistics sqrtFn c values metric_key tu).stdev,
              tags := tagsString monitor.tags }] := by
  simp only [process_metric]
  rw [if_neg hv]
  simp [hd]

/-- C9 witness: one raw row for a non actionDuration key with data. -/
theorem raw_mode_single_row_witness :
    (process_metric sqZero cfgKwDuration "raw" { name := "M" } "Loc"
        "x.firstByte" [7] "ms").length = 1 := by
  rw [raw_mode_single_row sqZero cfgKwDuration { name := "M" } "Loc"
        "x.firstByte" [7] "ms" (by decide) (by decide)]
  rfl

/-! ## C10 -/

/-- C10: the unit conversion step maps a numeric frequency cell v to
round(v / 60, 2) and passes a non numeric cell through unchanged; the
frequency rewrite touches no other field (the only other field convert_units
writes is metric_description, through the separate unit label adjustment,
which is the identity whenever the output unit is not s); evaluation mode
rows, which carry no frequency column, pass through unchanged. -/
theorem convert_units_spec (tu : String) (r : RawRow) (e : EvalRow) (v : ℚ)
    (s : String) :
    convert_units tu (.raw r) =
      .raw { r with frequency := freqConvert r.frequency,
                    metric_description :=
                      adjust_metric_description r.metric_description tu } ∧
    freqConvert (.num v) = .num (roundTo 2 (v / 60)) ∧
    freqConvert (.str s) = .str s ∧
    (tu ≠ "s" →
      convert_units tu (.raw r) =
        .raw { r with frequency := freqConvert r.frequency }) ∧
    convert_units tu (.eval e) = .eval e := by
  refine ⟨rfl, rfl, rfl, ?_, rfl⟩
  intro h
  simp [convert_units, adjust_metric_description, h]

/-- C10 witness: the 15 minute default frequency becomes 0.25 hours under
unit ms, with every other field untouched. -/
theorem convert_units_spec_witness :
    convert_units "ms" (.raw {}) = .raw { frequency := .num (1 / 4) } := by
  have h60 : ((15 : ℚ) / 60) = 1 / 4 := by norm_num
  have h25 : ((1 : ℚ) / 4 * 10 ^ 2) = 25 := by norm_num
  have hr : roundTo 2 ((1 : ℚ) / 4) = 1 / 4 := by
    simp only [roundTo, h25]
    norm_num [rhe]
  have hfc : freqConvert (FreqVal.num 15) = FreqVal.num (1 / 4) := by
    show FreqVal.num (roundTo 2 (15 / 60)) = _
    rw [h60, hr]
  have h := (convert_units_spec "ms" {} {} 0 "").2.2.2.1 (by decide)
  rw [h]
  show ReportRow.raw { frequency := freqConvert (FreqVal.num 15) } = _
  rw [hfc]

/-! ## C8 -/

/-- Inserting one element grows a list by one. -/
theorem length_insertBy {α : Type} (le : α → α → Bool) (a : α) (l : List α) :
    (insertBy le a l).length = l.length + 1 := by
  induction l with
  | nil => rfl
  | cons b t ih =>
      simp only [insertBy]
      split
      · rfl
      · simp [ih]

/-- Sorting preserves length. -/
theorem length_sortBy {α : Type} (le : α → α → Bool) (l : List α) :
    (sortBy le l).length = l.length := by
  induction l with
  | nil => rfl
  | cons a t ih => simp [sortBy, length_insertBy, ih]

/-- The index column written by positional assignment is the arithmetic
progression starting at the first assigned value. -/
theorem map_index_assignIndexFrom (i : ℕ) (l : List EvalRow) :
    (assignIndexFrom i l).map (fun r => r.index) = List.range' i l.length := by
  induction l generalizing i with
  | nil => rfl
  | cons r t ih => simp [assignIndexFrom, List.range', ih]

/-- The scatter step leaves the index of a row unchanged. -/
theorem setScatter_index (c : Config) (r : EvalRow) :
    (setScatter c r).index = r.index := by
  simp only [setScatter]
  split <;> rfl

/-- C8 (amended): in the standard evaluation output the index is assigned
after the final sort as a terminal renumbering step, so the index column of
the produced table is 1, 2, ..., n in the final row order; in the excel
variant the index is assigned BEFORE the excel specific sort, and the
produced table still carries 1, 2, ..., n exactly when no reordering follows
the assignment, in particular whenever excel_metric_order is empty. -/
theorem eval_index_terminal (c : Config) (rows : List EvalRow) :
    (evaluation_pipeline c rows).map (fun r => r.index) =
      List.range' 1 rows.length ∧
    (∀ out, c.excel_metric_order = [] →
      format_for_evaluation_export_excel c rows = .ok out →
      out.map (fun r => r.index) = List.range' 1 rows.length) := by
  constructor
  · simp only [evaluation_pipeline, format_for_evaluation_export, assignIndex,
      sort_by_monitor]
    rw [map_index_assignIndexFrom, length_sortBy]
  · intro out hord hok
    have hred : format_for_evaluation_export_excel c rows =
        .ok ((assignIndex rows).map (setScatter c)) := by
      simp [format_for_evaluation_export_excel, hord]
    rw [hred] at hok
    have hout := Except.ok.inj hok
    subst hout
    rw [List.map_map]
    have hcomp : ((fun r : EvalRow => r.index) ∘ setScatter c) =
        (fun r : EvalRow => r.index) := by
      funext r
      exact setScatter_index c r
    rw [hcomp]
    simp only [assignIndex]
    rw [map_index_assignIndexFrom]

/-- C8 witness: the theorem applied to two concrete rows, standard variant
and excel variant with an empty excel order. -/
theorem eval_index_terminal_witness :
    (evaluation_pipeline { } [{ metric_full_name := "B:y" },
        { metric_full_name := "A:x" }]).map (fun r => r.index) = [1, 2] ∧
    (format_for_evaluation_export_excel { } [{ metric_full_name := "B:y" },
        { metric_full_name := "A:x" }]).toOption.map
      (fun l => l.map (fun r => r.index)) = some [1, 2] := by
  have h := eval_index_terminal { } [{ metric_full_name := "B:y" },
    { metric_full_name := "A:x" }]
  constructor
  · rw [h.1]
    rfl
  · rw [show format_for_evaluation_export_excel { }
          [{ metric_full_name := "B:y" }, { metric_full_name := "A:x" }] =
        .ok ((assignIndex [{ metric_full_name := "B:y" },
          { metric_full_name := "A:x" }]).map (setScatter { })) from rfl]
    simp only [Except.toOption, Option.map]
    rw [h.2 _ rfl rfl]
    rfl

/-- Excel fixture for the counterexample: a scatter column literally named
monitor_name (so the excel sort does not raise) and an order table that
reverses the two rows. -/
def cfgExcelReorder : Config :=
  { excel_metric_column_mapping := [("zz", "monitor_name")],
    excel_metric_order := [{ metric_pattern := "B", order := some 1 }] }

/-- C8 counterexample: in the excel variant the produced table can carry the
index column [2, 1], because the index was assigned before the excel
specific sort reordered the rows. -/
theorem excel_index_counterexample :
    (format_for_evaluation_export_excel cfgExcelReorder
        [{ metric_full_name := "A:x" }, { metric_full_name := "B:y" }]).toOption.map
      (fun l => l.map (fun r => r.index)) = some [2, 1] ∧
    ([2, 1] : List ℕ) ≠ [1, 2] := by
  constructor
  · decide
  · decide

/-! ## C6 -/

/-- A left fold with min stays below its initial accumulator. -/
theorem foldl_min_le_init (a : ℚ) (l : List ℚ) : l.foldl min a ≤ a := by
  induction l generalizing a with
  | nil => simp
  | cons b t ih => exact le_trans (ih (min a b)) (min_le_left a b)

/-- A left fold with min stays below every list element. -/
theorem foldl_min_le_mem (x : ℚ) (l : List ℚ) (hx : x ∈ l) :
    ∀ a : ℚ, l.foldl min a ≤ x := by
  induction l with
  | nil => cases hx
  | cons b t ih =>
      intro a
      rcases List.mem_cons.mp hx with h | h
      · subst h
        exact le_trans (foldl_min_le_init (min a x) t) (min_le_right a x)
      · exact ih h (min a b)

/-- npMin bounds every element from below. -/
theorem npMin_le_mem (l : List ℚ) (x : ℚ) (hx : x ∈ l) : npMin l ≤ x := by
  cases l with
  | nil => cases hx
  | cons a t =>
      rcases List.mem_cons.mp hx with h | h
      · subst h
        exact foldl_min_le_init x t
      · exact foldl_min_le_mem x t h a

/-- A left fold with max stays above its initial accumulator. -/
theorem init_le_foldl_max (a : ℚ) (l : List ℚ) : a ≤ l.foldl max a := by
  induction l generalizing a with
  | nil => simp
  | cons b t ih => exact le_trans (le_max_left a b) (ih (max a b))

/-- A left fold with max stays above every list element. -/
theorem mem_le_foldl_max (x : ℚ) (l : List ℚ) (hx : x ∈ l) :
    ∀ a : ℚ, x ≤ l.foldl max a := by
  induction l with
  | nil => cases hx
  | cons b t ih =>
      intro a
      rcases List.mem_cons.mp hx with h | h
      · subst h
        exact le_trans (le_max_right a x) (init_le_foldl_max (max a x) t)
      · exact ih h (max a b)

/-- npMax bounds every element from above. -/
theorem mem_le_npMax (l : List ℚ) (x : ℚ) (hx : x ∈ l) : x ≤ npMax l := by
  cases l with
  | nil => cases hx
  | cons a t =>
      rcases List.mem_cons.mp hx with h | h
      · subst h
        exact init_le_foldl_max x t
      · exact mem_le_foldl_max x t h a

/-- A uniform lower bound of the elements bounds the sum from below. -/
theorem mul_card_le_sum (l : List ℚ) (a : ℚ) (h : ∀ x ∈ l, a ≤ x) :
    a * l.length ≤ l.sum := by
  induction l with
  | nil => simp
  | cons b t ih =>
      have hb : a ≤ b := h b (List.mem_cons_self b t)
      have ht : a * t.length ≤ t.sum := ih (fun x hx => h x (List.mem_cons_of_mem b hx))
      simp only [List.sum_cons, List.length_cons]
      push_cast
      linarith

/-- A uniform upper bound of the elements bounds the sum from above. -/
theorem sum_le_mul_card (l : List ℚ) (a : ℚ) (h : ∀ x ∈ l, x ≤ a) :
    l.sum ≤ a * l.length := by
  induction l with
  | nil => simp
  | cons b t ih =>
      have hb : b ≤ a := h b (List.mem_cons_self b t)
      have ht : t.sum ≤ a * t.length := ih (fun x hx => h x (List.mem_cons_of_mem b hx))
      simp only [List.sum_cons, List.length_cons]
      push_cast
      linarith

/-- The length of a non-empty list is positive as a rational. -/
theorem length_pos_q (l : List ℚ) (h : l ≠ []) : (0 : ℚ) < l.length := by
  have := List.length_pos.mpr h
  exact_mod_cast this

/-- The minimum is below the mean on non-empty input. -/
theorem npMin_le_npMean (l : List ℚ) (h : l ≠ []) : npMin l ≤ npMean l := by
  rw [npMean, le_div_iff₀ (length_pos_q l h)]
  exact mul_card_le_sum l (npMin l) (fun x hx => npMin_le_mem l x hx)

/-- The mean is below the maximum on non-empty input. -/
theorem npMean_le_npMax (l : List ℚ) (h : l ≠ []) : npMean l ≤ npMax l := by
  rw [npMean, div_le_iff₀ (length_pos_q l h)]
  exact sum_le_mul_card l (npMax l) (fun x hx => mem_le_npMax l x hx)

/-- Membership in an insertion. -/
theorem mem_insertLE (a x : ℚ) (l : List ℚ) :
    x ∈ insertLE a l ↔ x = a ∨ x ∈ l := by
  induction l with
  | nil => simp [insertLE]
  | cons b t ih =>
      simp only [insertLE]
      split
      · simp
      · simp only [List.mem_cons, ih]
        tauto

/-- Membership is preserved by sorting. -/
theorem mem_sortLE (x : ℚ) (l : List ℚ) : x ∈ sortLE l ↔ x ∈ l := by
  induction l with
  | nil => simp [sortLE]
  | cons a t ih => simp [sortLE, mem_insertLE, ih]

/-- Length is preserved by insertion. -/
theorem length_insertLE (a : ℚ) (l : List ℚ) :
    (insertLE a l).length = l.length + 1 := by
  induction l with
  | nil => rfl
  | cons b t ih =>
      simp only [insertLE]
      split
      · rfl
      · simp [ih]

/-- Length is preserved by sorting. -/
theorem length_sortLE (l : List ℚ) : (sortLE l).length = l.length := by
  induction l with
  | nil => rfl
  | cons a t ih => simp [sortLE, length_insertLE, ih]

/-- A getD at an index inside the list is a member. -/
theorem getD_mem (l : List ℚ) (i : ℕ) (d : ℚ) (h : i < l.length) :
    l.getD i d ∈ l := by
  rw [List.getD_eq_getElem?_getD, List.getElem?_eq_getElem h]
  simp only [Option.getD_some]
  exact List.getElem_mem h

/-- The median lies between the minimum and the maximum on non-empty input. -/
theorem npMedian_bounds (l : List ℚ) (h : l ≠ []) :
    npMin l ≤ npMedian l ∧ npMedian l ≤ npMax l := by
  have hn : 0 < l.length := List.length_pos.mpr h
  have hs : (sortLE l).length = l.length := length_sortLE l
  simp only [npMedian]
  by_cases hodd : l.length % 2 = 1
  · rw [if_pos hodd]
    have hidx : l.length / 2 < (sortLE l).length := by
      rw [hs]
      exact Nat.div_lt_self hn (by norm_num)
    have hmem2 : (sortLE l).getD (l.length / 2) 0 ∈ l :=
      (mem_sortLE _ l).mp (getD_mem _ _ _ hidx)
    exact ⟨npMin_le_mem l _ hmem2, mem_le_npMax l _ hmem2⟩
  · rw [if_neg hodd]
    have hidx1 : l.length / 2 - 1 < (sortLE l).length := by
      rw [hs]
      omega
    have hidx2 : l.length / 2 < (sortLE l).length := by
      rw [hs]
      exact Nat.div_lt_self hn (by norm_num)
    have hm1 : (sortLE l).getD (l.length / 2 - 1) 0 ∈ l :=
      (mem_sortLE _ l).mp (getD_mem _ _ _ hidx1)
    have hm2 : (sortLE l).getD (l.length / 2) 0 ∈ l :=
      (mem_sortLE _ l).mp (getD_mem _ _ _ hidx2)
    have h1l := npMin_le_mem l _ hm1
    have h2l := npMin_le_mem l _ hm2
    have h1u := mem_le_npMax l _ hm1
    have h2u := mem_le_npMax l _ hm2
    constructor
    · linarith
    · linarith

/-- The floor bounds the half to even rounding from below. -/
theorem floor_le_rhe (q : ℚ) : ⌊q⌋ ≤ rhe q := by
  unfold rhe
  split_ifs <;> omega

/-- The half to even rounding is at most the floor plus one. -/
theorem rhe_le_floor_add_one (q : ℚ) : rhe q ≤ ⌊q⌋ + 1 := by
  unfold rhe
  split_ifs <;> omega

/-- Half to even rounding is monotone. -/
theorem rhe_mono {x y : ℚ} (h : x ≤ y) : rhe x ≤ rhe y := by
  have hf : ⌊x⌋ ≤ ⌊y⌋ := Int.floor_mono h
  rcases eq_or_lt_of_le hf with heq | hlt
  · unfold rhe
    rw [← heq]
    have hfx : (⌊x⌋ : ℚ) ≤ x := Int.floor_le x
    split_ifs <;> first | omega | (exfalso; linarith)
  · have h1 := rhe_le_floor_add_one x
    have h2 := floor_le_rhe y
    omega

/-- Python round at a fixed number of decimals is monotone. -/
theorem roundTo_mono (n : ℕ) {x y : ℚ} (h : x ≤ y) :
    roundTo n x ≤ roundTo n y := by
  unfold roundTo
  have hp : (0 : ℚ) ≤ 10 ^ n := by positivity
  have hm : x * 10 ^ n ≤ y * 10 ^ n := mul_le_mul_of_nonneg_right h hp
  have hr : ((rhe (x * 10 ^ n) : ℚ)) ≤ ((rhe (y * 10 ^ n) : ℚ)) := by
    exact_mod_cast rhe_mono hm
  gcongr

/-- The minimum of a non-empty list is below its maximum. -/
theorem npMin_le_npMax (l : List ℚ) (h : l ≠ []) : npMin l ≤ npMax l := by
  cases l with
  | nil => exact absurd rfl h
  | cons a t =>
      exact le_trans (foldl_min_le_init a t) (init_le_foldl_max a t)

/-- The order invariant holds of the unrounded summary on non-empty input. -/
theorem rawStats_invariant (sqrtFn : ℚ → ℚ) (l : List ℚ) (h : l ≠ []) :
    (rawStats sqrtFn l).min ≤ (rawStats sqrtFn l).median ∧
    (rawStats sqrtFn l).median ≤ (rawStats sqrtFn l).max ∧
    (rawStats sqrtFn l).min ≤ (rawStats sqrtFn l).avg ∧
    (rawStats sqrtFn l).avg ≤ (rawStats sqrtFn l).max := by
  have hmed := npMedian_bounds l h
  exact ⟨hmed.1, hmed.2, npMin_le_npMean l h, npMean_le_npMax l h⟩

/-- Rounding every field preserves the order invariant. -/
theorem roundStats_invariant (n : ℕ) (s : Stats)
    (h : s.min ≤ s.median ∧ s.median ≤ s.max ∧ s.min ≤ s.avg ∧ s.avg ≤ s.max) :
    (roundStats n s).min ≤ (roundStats n s).median ∧
    (roundStats n s).median ≤ (roundStats n s).max ∧
    (roundStats n s).min ≤ (roundStats n s).avg ∧
    (roundStats n s).avg ≤ (roundStats n s).max := by
  exact ⟨roundTo_mono n h.1, roundTo_mono n h.2.1,
    roundTo_mono n h.2.2.1, roundTo_mono n h.2.2.2⟩

/-- C6: for every non-empty sample list processed by the non counter
statistics path (any key outside the hard coded success and failure list),
the summary satisfies min below median below max and min below avg below
max, after the per classification scaling and rounding. -/
theorem stats_order_invariant (sqrtFn : ℚ → ℚ) (c : Config)
    (metric_key tu : String) (values : List ℚ)
    (hv : values ≠ []) (hk : metric_key ∉ counterKeys) :
    (calculate_statistics sqrtFn c values metric_key tu).min ≤
        (calculate_statistics sqrtFn c values metric_key tu).median ∧
    (calculate_statistics sqrtFn c values metric_key tu).median ≤
        (calculate_statistics sqrtFn c values metric_key tu).max ∧
    (calculate_statistics sqrtFn c values metric_key tu).min ≤
        (calculate_statistics sqrtFn c values metric_key tu).avg ∧
    (calculate_statistics sqrtFn c values metric_key tu).avg ≤
        (calculate_statistics sqrtFn c values metric_key tu).max := by
  rw [calc_stats_general sqrtFn c values metric_key tu hv hk]
  have hv2 : values.map (fun v => v / 1000) ≠ [] := by
    simpa using hv
  split_ifs with h1 h2
  · exact roundStats_invariant 2 _ (rawStats_invariant sqrtFn _ hv2)
  · exact roundStats_invariant 3 _ (rawStats_invariant sqrtFn _ hv)
  · exact rawStats_invariant sqrtFn _ hv

/-- C6 witness: the theorem applied to the samples [3, 1, 2] under the
default configuration. -/
theorem stats_order_invariant_witness :
    (calculate_statistics sqZero { } [3, 1, 2] "x" "ms").min ≤
        (calculate_statistics sqZero { } [3, 1, 2] "x" "ms").median ∧
    (calculate_statistics sqZero { } [3, 1, 2] "x" "ms").median ≤
        (calculate_statistics sqZero { } [3, 1, 2] "x" "ms").max ∧
    (calculate_statistics sqZero { } [3, 1, 2] "x" "ms").min ≤
        (calculate_statistics sqZero { } [3, 1, 2] "x" "ms").avg ∧
    (calculate_statistics sqZero { } [3, 1, 2] "x" "ms").avg ≤
        (calculate_statistics sqZero { } [3, 1, 2] "x" "ms").max :=
  stats_order_invariant sqZero { } "x" "ms" [3, 1, 2] (by decide) (by decide)

end DtSynth
